import Mathlib

/-!
Verification of the angular-signal-forms-examples repository.

Shallow embedding of the repository's pure logic:
- `src/app/lib/field-errors.ts` (fieldErrors)
- `src/mocks/handlers.ts` (the two msw request handlers)
- `src/app/examples/location-select.ts` (cascading select model updates and
  derived option lists)
- `src/app/examples/checkout.ts` (expiry-date parse/format helpers; JS strings
  are modelled as lists of characters there, since the proofs are about
  `split('/')`)
- `src/app/examples/pizza-order.ts` (the constructor effect on the order model)
- `src/app/examples/simple-signup.ts` (the confirmPassword custom validator)

JS `String.prototype.toLowerCase` is modelled character-wise via `Char.toLower`
(the inputs in this repository are ASCII).
-/

/-- A validation error object `{ kind: string, message?: string }` as produced
by the signal-forms validators in this repository. -/
structure FormError where
  kind : String
  message : Option String
deriving DecidableEq, Repr

/-- The observations of a `FieldState` that `fieldErrors` reads:
`touched()`, `invalid()` and `errors()`. -/
structure FieldState where
  touched : Bool
  invalid : Bool
  errors : List FormError
deriving DecidableEq, Repr

/-- Embedding of `fieldErrors` from `src/app/lib/field-errors.ts`:
returns `errors().map(e => e.message ?? e.kind)` when `touched() && invalid()`,
and `[]` otherwise. -/
def fieldErrors (fieldState : FieldState) : List String :=
  if fieldState.touched && fieldState.invalid then
    fieldState.errors.map (fun e => e.message.getD e.kind)
  else
    []

/-- Character-wise lowercasing, modelling JS `toLowerCase` on the ASCII data
used in this repository. -/
def jsToLower (s : String) : String :=
  ⟨s.data.map Char.toLower⟩

/-- `existingUsernames` from `src/mocks/handlers.ts`. -/
def existingUsernames : List String :=
  ["admin", "user", "test", "john", "jane"]

/-- `cities` from `src/mocks/handlers.ts` (the fixed 18-city list). -/
def cities : List String :=
  ["Tokyo", "Toronto", "Taipei", "Tallinn", "Tampa",
   "Osaka", "Oslo", "Ottawa", "Oxford",
   "Paris", "Prague", "Portland", "Perth",
   "Berlin", "Barcelona", "Bangkok", "Boston", "Budapest"]

/-- The JSON bodies the two mock handlers can produce. -/
inductive MockBody where
  | errorBody (error : String)
  | takenBody (taken : Bool)
  | listBody (results : List String)
deriving DecidableEq, Repr

/-- An HTTP response from the mock layer: `HttpResponse.json(body, {status})`,
with status 200 when not given. -/
structure MockResponse where
  status : Nat
  body : MockBody
deriving DecidableEq, Repr

/-- Embedding of the `/api/check-username` handler from
`src/mocks/handlers.ts`. The argument is the `username` query parameter
(`none` when absent); JS `!username` is true for both `null` and `''`. -/
def checkUsername (username : Option String) : MockResponse :=
  match username with
  | none => ⟨400, .errorBody "Username required"⟩
  | some u =>
    if u = "" then ⟨400, .errorBody "Username required"⟩
    else ⟨200, .takenBody (existingUsernames.contains (jsToLower u))⟩

/-- Embedding of the `/api/cities` handler from `src/mocks/handlers.ts`.
The argument is the `q` query parameter; `searchParams.get('q') ?? ''`
is `Option.getD`. -/
def citiesRespond (qo : Option String) : MockResponse :=
  let q := qo.getD ""
  if q.length < 2 then ⟨200, .listBody []⟩
  else ⟨200, .listBody (cities.filter
    (fun c => (jsToLower c).startsWith (jsToLower q)))⟩

/-- A route registration in the msw `handlers` array: HTTP method, path, and
the response function (each handler of this repository reads one query
parameter). -/
structure RouteHandler where
  method : String
  path : String
  respond : Option String → MockResponse

/-- Embedding of the `handlers` array from `src/mocks/handlers.ts`. -/
def handlers : List RouteHandler :=
  [⟨"GET", "/api/check-username", checkUsername⟩,
   ⟨"GET", "/api/cities", citiesRespond⟩]

/-- A city entry from `LOCATION_DATA` in
`src/app/examples/location-select.ts`. -/
structure City where
  id : String
  name : String
deriving DecidableEq, Repr

/-- A country entry from `LOCATION_DATA`. -/
structure Country where
  id : String
  name : String
  cities : List City
deriving DecidableEq, Repr

/-- A region entry from `LOCATION_DATA`. -/
structure Region where
  id : String
  name : String
  countries : List Country
deriving DecidableEq, Repr

/-- `LOCATION_DATA` from `src/app/examples/location-select.ts`. -/
def LOCATION_DATA : List Region :=
  [⟨"asia", "Asia",
    [⟨"japan", "Japan", [⟨"tokyo", "Tokyo"⟩, ⟨"osaka", "Osaka"⟩, ⟨"kyoto", "Kyoto"⟩]⟩,
     ⟨"korea", "South Korea", [⟨"seoul", "Seoul"⟩, ⟨"busan", "Busan"⟩]⟩]⟩,
   ⟨"europe", "Europe",
    [⟨"france", "France", [⟨"paris", "Paris"⟩, ⟨"lyon", "Lyon"⟩]⟩,
     ⟨"germany", "Germany", [⟨"berlin", "Berlin"⟩, ⟨"munich", "Munich"⟩]⟩]⟩]

/-- The `locationModel` record `{ region, country, city }` of `LocationSelect`. -/
structure LocationModel where
  region : String
  country : String
  city : String
deriving DecidableEq, Repr

/-- Embedding of `LocationSelect.onRegionChange`:
`update((v) => ({ ...v, country: '', city: '' }))`. -/
def onRegionChange (v : LocationModel) : LocationModel :=
  { v with country := "", city := "" }

/-- Embedding of `LocationSelect.onCountryChange`:
`update((v) => ({ ...v, city: '' }))`. -/
def onCountryChange (v : LocationModel) : LocationModel :=
  { v with city := "" }

/-- Embedding of the `availableCountries` computed of `LocationSelect`:
`[]` when the region id is falsy, otherwise the countries of the first region
whose id matches, defaulting to `[]`. -/
def availableCountries (m : LocationModel) : List Country :=
  if m.region = "" then []
  else
    match LOCATION_DATA.find? (fun r => r.id == m.region) with
    | some region => region.countries
    | none => []

/-- Embedding of the `availableCities` computed of `LocationSelect`:
`[]` when the country id is falsy, otherwise the cities of the first matching
country among `availableCountries()`, defaulting to `[]`. -/
def availableCities (m : LocationModel) : List City :=
  if m.country = "" then []
  else
    match (availableCountries m).find? (fun c => c.id == m.country) with
    | some country => country.cities
    | none => []

/-- JS `split('/')` on a string modelled as a list of characters:
splits at every `'/'`, keeping empty segments, so the result always has one
more segment than there are slashes. -/
def splitOnSlash : List Char → List (List Char)
  | [] => [[]]
  | c :: cs =>
    if c = '/' then [] :: splitOnSlash cs
    else
      match splitOnSlash cs with
      | [] => [[c]]
      | p :: ps => (c :: p) :: ps

/-- Embedding of `parseMonth` from `src/app/examples/checkout.ts`, with the JS
string modelled as a list of characters:
`expiryDate.includes('/') ? expiryDate.split('/')[0] : ''`. -/
def parseMonth (expiryDate : List Char) : List Char :=
  if '/' ∈ expiryDate then (splitOnSlash expiryDate).headD [] else []

/-- Embedding of `parseYear` from `src/app/examples/checkout.ts`:
`expiryDate.includes('/') ? expiryDate.split('/')[1] : ''`. -/
def parseYear (expiryDate : List Char) : List Char :=
  if '/' ∈ expiryDate then (splitOnSlash expiryDate).getD 1 [] else []

/-- Embedding of `formatExpiryDate` from `src/app/examples/checkout.ts`:
the template literal `month + '/' + year`. -/
def formatExpiryDate (month year : List Char) : List Char :=
  month ++ '/' :: year

/-- The `orderType` union `'togo' | 'delivery'` of
`src/app/examples/pizza-order.ts`. -/
inductive OrderType where
  | togo
  | delivery
deriving DecidableEq, Repr

/-- The `OrderData` record of `src/app/examples/pizza-order.ts`; the
`paymentMethod` field is a string because the initial model casts `''` to
`PaymentMethod`. -/
structure OrderData where
  customerName : String
  orderType : OrderType
  deliveryAddress : String
  paymentMethod : String
deriving DecidableEq, Repr

/-- One run of the body of the `effect()` registered in the `PizzaOrder`
constructor: when `orderType === 'delivery' && paymentMethod !== 'card'`,
it rewrites the model with `paymentMethod: 'card'`; otherwise it leaves the
model untouched. -/
def pizzaOrderEffect (m : OrderData) : OrderData :=
  if m.orderType = .delivery ∧ m.paymentMethod ≠ "card" then
    { m with paymentMethod := "card" }
  else m

/-- Embedding of the custom validator registered on `schema.confirmPassword`
in `SimpleSignup.signupForm` (`src/app/examples/simple-signup.ts`): given the
field value and the value of `schema.password`, it returns the
`passwordMismatch` error when they differ and `undefined` otherwise. -/
def validateConfirmPassword (value password : String) : Option FormError :=
  if value ≠ password then
    some ⟨"passwordMismatch", some "Passwords do not match"⟩
  else none

/-- C5: the `handlers` array registered with the in-browser mocking layer has
exactly two entries, one for GET /api/check-username and one for
GET /api/cities. -/
theorem handlers_exactly_two :
    handlers.length = 2 ∧
    handlers.map (fun h => (h.method, h.path)) =
      [("GET", "/api/check-username"), ("GET", "/api/cities")] :=
  ⟨rfl, rfl⟩

/-- C6: `onRegionChange` keeps the region and clears country and city;
`onCountryChange` keeps region and country and clears city; the model has no
other fields, and none of them is otherwise modified. -/
theorem cascade_reset_frame (v : LocationModel) :
    (onRegionChange v).region = v.region ∧
    (onRegionChange v).country = "" ∧
    (onRegionChange v).city = "" ∧
    (onCountryChange v).region = v.region ∧
    (onCountryChange v).country = v.country ∧
    (onCountryChange v).city = "" :=
  ⟨rfl, rfl, rfl, rfl, rfl, rfl⟩

/-- C8: `fieldErrors` returns the empty list whenever the field state is
untouched or not invalid. -/
theorem fieldErrors_untouched_or_valid (s : FieldState)
    (h : s.touched = false ∨ s.invalid = false) : fieldErrors s = [] := by
  unfold fieldErrors
  rcases h with h | h <;> simp [h]

/-- Witness for C8 at a concrete untouched field state. -/
theorem fieldErrors_untouched_or_valid_witness :
    fieldErrors ⟨false, true, [⟨"required", some "Email is required"⟩]⟩ = [] :=
  fieldErrors_untouched_or_valid
    ⟨false, true, [⟨"required", some "Email is required"⟩]⟩ (Or.inl rfl)

/-- C2: the check-username handler answers 400 with the error body when the
username parameter is absent or empty, and otherwise 200 with a body whose
`taken` flag is true exactly when the lowercased username is one of the five
existing usernames. -/
theorem checkUsername_spec (u : String) :
    checkUsername none = ⟨400, .errorBody "Username required"⟩ ∧
    checkUsername (some "") = ⟨400, .errorBody "Username required"⟩ ∧
    (u ≠ "" → ∃ t, checkUsername (some u) = ⟨200, .takenBody t⟩ ∧
      (t = true ↔ jsToLower u ∈ existingUsernames)) := by
  refine ⟨rfl, rfl, fun hu =>
    ⟨existingUsernames.contains (jsToLower u), ?_, ?_⟩⟩
  · simp [checkUsername, hu]
  · simp [List.contains]

/-- Witness for C2 at the concrete username "Admin". -/
theorem checkUsername_spec_witness :
    ∃ t, checkUsername (some "Admin") = ⟨200, .takenBody t⟩ ∧
      (t = true ↔ jsToLower "Admin" ∈ existingUsernames) :=
  (checkUsername_spec "Admin").2.2 (by decide)

/-- C10: the check-username handler is case-insensitive: two non-empty
usernames with the same lowercase folding get identical responses. -/
theorem checkUsername_case_insensitive (u v : String) (hu : u ≠ "")
    (h : jsToLower u = jsToLower v) :
    checkUsername (some u) = checkUsername (some v) := by
  have hv : v ≠ "" := by
    intro hv0
    apply hu
    subst hv0
    have hd : u.data.map Char.toLower = [] := congrArg String.data h
    have : u.data = [] := by
      cases hu : u.data <;> simp [hu] at hd ⊢
    cases u
    simp_all
  simp [checkUsername, hu, hv, h]

/-- Witness for C10 at the concrete pair "Admin" / "ADMIN". -/
theorem checkUsername_case_insensitive_witness :
    checkUsername (some "Admin") = checkUsername (some "ADMIN") :=
  checkUsername_case_insensitive "Admin" "ADMIN" (by decide) (by decide)

/-- C1 counterexample: for a touched, invalid field state whose single error
has no message, `fieldErrors` returns the error's kind, which is not the
message of any error in the state; so not every displayed string equals a
validator-supplied message. -/
theorem fieldErrors_message_only_false :
    ¬ (∀ m ∈ fieldErrors ⟨true, true, [⟨"required", none⟩]⟩,
        ∃ e ∈ FieldState.errors ⟨true, true, [⟨"required", none⟩]⟩,
          e.message = some m) := by
  decide

/-- C1 amended: every string returned by `fieldErrors` comes from one of the
errors of the state: it is that error's message, or, when the error carries no
message, that error's kind. -/
theorem fieldErrors_messages_or_kinds (s : FieldState) (m : String)
    (h : m ∈ fieldErrors s) :
    ∃ e ∈ s.errors,
      e.message = some m ∨ (e.message = none ∧ e.kind = m) := by
  unfold fieldErrors at h
  split at h
  · obtain ⟨e, he, hm⟩ := List.mem_map.1 h
    refine ⟨e, he, ?_⟩
    obtain ⟨k, mo⟩ := e
    cases mo with
    | none =>
      right
      refine ⟨rfl, ?_⟩
      simpa using hm
    | some msg =>
      left
      simp only [Option.getD_some] at hm
      simp [hm]
  · simp at h

/-- Witness for the amended C1 at a concrete touched, invalid field state. -/
theorem fieldErrors_messages_or_kinds_witness :
    ∃ e ∈ FieldState.errors
        ⟨true, true, [⟨"required", some "Email is required"⟩]⟩,
      e.message = some "Email is required" ∨
        (e.message = none ∧ e.kind = "Email is required") :=
  fieldErrors_messages_or_kinds
    ⟨true, true, [⟨"required", some "Email is required"⟩]⟩
    "Email is required" (by decide)

/-- C4 counterexample: the repository does impose cross-field constraints:
the pizza-order effect rewrites `paymentMethod` from 'cash' to 'card' on a
delivery order, and the signup example's custom validator flags
`confirmPassword` against `password`. -/
theorem no_cross_field_constraints_false :
    pizzaOrderEffect ⟨"Alice", .delivery, "1 Main St", "cash"⟩ =
      ⟨"Alice", .delivery, "1 Main St", "card"⟩ ∧
    validateConfirmPassword "hunter2" "hunter3" =
      some ⟨"passwordMismatch", some "Passwords do not match"⟩ := by
  exact ⟨by decide, by decide⟩

/-- C4 amended: the repository defines exactly these cross-field constraints
at the two cited places: the pizza-order effect forces `paymentMethod` to
'card' exactly when `orderType` is 'delivery' and changes no other field, and
the signup validator accepts `confirmPassword` exactly when it equals
`password`. -/
theorem cross_field_constraints (m : OrderData) (v p : String) :
    (pizzaOrderEffect m).customerName = m.customerName ∧
    (pizzaOrderEffect m).orderType = m.orderType ∧
    (pizzaOrderEffect m).deliveryAddress = m.deliveryAddress ∧
    (pizzaOrderEffect m).paymentMethod =
      (if m.orderType = .delivery then "card" else m.paymentMethod) ∧
    (validateConfirmPassword v p = none ↔ v = p) := by
  refine ⟨?_, ?_, ?_, ?_, ?_⟩
  · unfold pizzaOrderEffect; split <;> rfl
  · unfold pizzaOrderEffect; split <;> rfl
  · unfold pizzaOrderEffect; split <;> rfl
  · by_cases h1 : m.orderType = OrderType.delivery
    · by_cases h2 : m.paymentMethod = "card"
      · simp [pizzaOrderEffect, h1, h2]
      · simp [pizzaOrderEffect, h1, h2]
    · simp [pizzaOrderEffect, h1]
  · by_cases h : v = p <;> simp [validateConfirmPassword, h]

/-- C3: the cities handler always answers 200; it returns the empty list when
the query (defaulting to the empty string when absent) has fewer than 2
characters, and otherwise exactly the members of the fixed 18-city list whose
name starts case-insensitively with the query, in the order of that list. -/
theorem citiesRespond_spec (qo : Option String) :
    (citiesRespond qo).status = 200 ∧
    ((qo.getD "").length < 2 → citiesRespond qo = ⟨200, .listBody []⟩) ∧
    (2 ≤ (qo.getD "").length →
      ∃ l, citiesRespond qo = ⟨200, .listBody l⟩ ∧
        l.Sublist cities ∧
        ∀ c, c ∈ l ↔ c ∈ cities ∧
          (jsToLower c).startsWith (jsToLower (qo.getD "")) = true) := by
  refine ⟨?_, ?_, ?_⟩
  · by_cases h : (qo.getD "").length < 2 <;> simp [citiesRespond, h]
  · intro h
    simp [citiesRespond, h]
  · intro h
    have hnot : ¬ (qo.getD "").length < 2 := not_lt.2 h
    refine ⟨cities.filter
      (fun c => (jsToLower c).startsWith (jsToLower (qo.getD ""))), ?_,
      List.filter_sublist _, fun c => ?_⟩
    · simp [citiesRespond, hnot]
    · simp [List.mem_filter]

/-- Witness for C3 at the concrete queries "x" (too short) and "to". -/
theorem citiesRespond_spec_witness :
    citiesRespond (some "x") = ⟨200, .listBody []⟩ ∧
    ∃ l, citiesRespond (some "to") = ⟨200, .listBody l⟩ ∧
      l.Sublist cities ∧
      ∀ c, c ∈ l ↔ c ∈ cities ∧
        (jsToLower c).startsWith (jsToLower "to") = true :=
  ⟨(citiesRespond_spec (some "x")).2.1 (by decide),
   (citiesRespond_spec (some "to")).2.2 (by decide)⟩

/-- C7: every country offered by `availableCountries` belongs to a region of
`LOCATION_DATA` whose id is the model's region (and the list is empty when the
region is empty or matches no region); every city offered by `availableCities`
belongs to a country of `availableCountries` whose id is the model's country
(and the list is empty when the country is empty or matches no offered
country). -/
theorem availableOptions_consistent (m : LocationModel) :
    (∀ c ∈ availableCountries m,
      ∃ r ∈ LOCATION_DATA, r.id = m.region ∧ c ∈ r.countries) ∧
    (m.region = "" → availableCountries m = []) ∧
    ((∀ r ∈ LOCATION_DATA, r.id ≠ m.region) → availableCountries m = []) ∧
    (∀ c ∈ availableCities m,
      ∃ co ∈ availableCountries m, co.id = m.country ∧ c ∈ co.cities) ∧
    (m.country = "" → availableCities m = []) ∧
    ((∀ co ∈ availableCountries m, co.id ≠ m.country) →
      availableCities m = []) := by
  refine ⟨?_, ?_, ?_, ?_, ?_, ?_⟩
  · intro c hc
    unfold availableCountries at hc
    split at hc
    · simp at hc
    · cases hfind : LOCATION_DATA.find? (fun r => r.id == m.region) with
      | none => rw [hfind] at hc; simp at hc
      | some r =>
        rw [hfind] at hc
        refine ⟨r, List.mem_of_find?_eq_some hfind, ?_, hc⟩
        have := List.find?_some hfind
        simpa using this
  · intro h
    unfold availableCountries
    rw [if_pos h]
  · intro h
    unfold availableCountries
    split
    · rfl
    · cases hfind : LOCATION_DATA.find? (fun r => r.id == m.region) with
      | none => rfl
      | some r =>
        exact absurd (by simpa using List.find?_some hfind)
          (h r (List.mem_of_find?_eq_some hfind))
  · intro c hc
    unfold availableCities at hc
    split at hc
    · simp at hc
    · cases hfind :
        (availableCountries m).find? (fun co => co.id == m.country) with
      | none => rw [hfind] at hc; simp at hc
      | some co =>
        rw [hfind] at hc
        refine ⟨co, List.mem_of_find?_eq_some hfind, ?_, hc⟩
        have := List.find?_some hfind
        simpa using this
  · intro h
    unfold availableCities
    rw [if_pos h]
  · intro h
    unfold availableCities
    split
    · rfl
    · cases hfind :
        (availableCountries m).find? (fun co => co.id == m.country) with
      | none => rfl
      | some co =>
        exact absurd (by simpa using List.find?_some hfind)
          (h co (List.mem_of_find?_eq_some hfind))

/-- Witness for C7 at the concrete model (asia, japan, -): Japan is offered
and belongs to the asia region; with no country chosen, no cities are
offered. -/
theorem availableOptions_consistent_witness :
    (∃ r ∈ LOCATION_DATA, r.id = "asia" ∧
      (⟨"japan", "Japan",
        [⟨"tokyo", "Tokyo"⟩, ⟨"osaka", "Osaka"⟩, ⟨"kyoto", "Kyoto"⟩]⟩ :
        Country) ∈ r.countries) ∧
    availableCities ⟨"asia", "", ""⟩ = [] :=
  ⟨(availableOptions_consistent ⟨"asia", "japan", ""⟩).1
      ⟨"japan", "Japan",
        [⟨"tokyo", "Tokyo"⟩, ⟨"osaka", "Osaka"⟩, ⟨"kyoto", "Kyoto"⟩]⟩
      (by decide),
   (availableOptions_consistent ⟨"asia", "", ""⟩).2.2.2.2.1 rfl⟩

/-- A slash-free string is returned whole as the single segment. -/
theorem splitOnSlash_no_slash (s : List Char) (h : '/' ∉ s) :
    splitOnSlash s = [s] := by
  induction s with
  | nil => rfl
  | cons c cs ih =>
    have hc : ¬ c = '/' := fun e => h (e ▸ List.mem_cons_self c cs)
    have hcs : '/' ∉ cs := fun e => h (List.mem_cons_of_mem _ e)
    simp [splitOnSlash, hc, ih hcs]

/-- Splitting past a slash-free prefix peels it off as the first segment. -/
theorem splitOnSlash_append (a b : List Char) (h : '/' ∉ a) :
    splitOnSlash (a ++ '/' :: b) = a :: splitOnSlash b := by
  induction a with
  | nil => simp [splitOnSlash]
  | cons c cs ih =>
    have hc : ¬ c = '/' := fun e => h (e ▸ List.mem_cons_self c cs)
    have hcs : '/' ∉ cs := fun e => h (List.mem_cons_of_mem _ e)
    simp [splitOnSlash, hc, ih hcs]

/-- A string with exactly one slash decomposes as a slash-free prefix, the
slash, and a slash-free suffix. -/
theorem count_one_decomp (s : List Char) (h : s.count '/' = 1) :
    ∃ a b, s = a ++ '/' :: b ∧ '/' ∉ a ∧ '/' ∉ b := by
  induction s with
  | nil => simp at h
  | cons c cs ih =>
    by_cases hc : c = '/'
    · subst hc
      have h0 : cs.count '/' = 0 := by
        simpa [List.count_cons] using h
      exact ⟨[], cs, rfl, by simp,
        by rwa [List.count_eq_zero] at h0⟩
    · have h1 : cs.count '/' = 1 := by
        have hne : ¬ ('/' : Char) = c := fun e => hc e.symm
        simpa [List.count_cons, hne] using h
      obtain ⟨a, b, rfl, ha, hb⟩ := ih h1
      refine ⟨c :: a, b, rfl, ?_, hb⟩
      intro hmem
      rcases List.mem_cons.1 hmem with he | hmem2
      · exact hc he.symm
      · exact ha hmem2

/-- C9: expiry-date round-trip. Formatting a slash-free month and year and
parsing the result recovers both; parsing a string that contains exactly one
slash and formatting the parts recovers the string. -/
theorem expiry_roundTrip (m y s : List Char)
    (hm : '/' ∉ m) (hy : '/' ∉ y) (hs : s.count '/' = 1) :
    parseMonth (formatExpiryDate m y) = m ∧
    parseYear (formatExpiryDate m y) = y ∧
    formatExpiryDate (parseMonth s) (parseYear s) = s := by
  have hmem : '/' ∈ formatExpiryDate m y := by
    simp [formatExpiryDate]
  refine ⟨?_, ?_, ?_⟩
  · rw [parseMonth, if_pos hmem, formatExpiryDate,
      splitOnSlash_append m y hm]
    rfl
  · rw [parseYear, if_pos hmem, formatExpiryDate,
      splitOnSlash_append m y hm, splitOnSlash_no_slash y hy]
    rfl
  · obtain ⟨a, b, rfl, ha, hb⟩ := count_one_decomp s hs
    have hmem2 : '/' ∈ a ++ '/' :: b := by simp
    rw [parseMonth, if_pos hmem2, parseYear, if_pos hmem2,
      splitOnSlash_append a b ha, splitOnSlash_no_slash b hb]
    rfl

/-- Witness for C9 at month "12", year "25" and the string "01/99". -/
theorem expiry_roundTrip_witness :
    parseMonth (formatExpiryDate ['1', '2'] ['2', '5']) = ['1', '2'] ∧
    parseYear (formatExpiryDate ['1', '2'] ['2', '5']) = ['2', '5'] ∧
    formatExpiryDate (parseMonth ['0', '1', '/', '9', '9'])
        (parseYear ['0', '1', '/', '9', '9']) =
      ['0', '1', '/', '9', '9'] :=
  expiry_roundTrip ['1', '2'] ['2', '5'] ['0', '1', '/', '9', '9']
    (by decide) (by decide) (by decide)
